import Mathlib

/-!
Verification development for the CLUTCHPARTY WebRTC mesh-voice negotiation core
(`src/web/src/app/room/[id]/lobby/page.tsx` and
`src/web/src/app/room/[id]/game/page.tsx`).

The signaling handlers, outbound candidate batcher, membership reconciler and
failure-recovery handlers of the two pages are embedded as pure Lean functions
over explicit state records.  Connection-level effects (setLocalDescription,
setRemoteDescription, addIceCandidate) are recorded in an operation trace so
that ordering properties (rollback before remote offer, drain order of buffered
candidates) are observable.
-/

namespace ClutchParty

/-- The standard network-candidate descriptor (`RTCIceCandidateInit`):
candidate string, media-stream identification tag, media line index.
Fields are optional exactly as in the browser type. -/
structure CandidateInit where
  candidate : Option String
  sdpMid : Option String
  sdpMLineIndex : Option Nat
deriving DecidableEq, Repr

/-- JavaScript `x || ''` applied to an optional string (`''` is falsy, so the
result is the string when present and nonempty behaviourally; on strings the
empty default coincides). -/
def jsOrEmptyStr : Option String → String
  | Option.none => ""
  | Option.some s => s

/-- JavaScript `${n || ''}` applied to an optional `sdpMLineIndex` number:
`0` is falsy in JavaScript and renders as the empty string. -/
def jsOrEmptyNum : Option Nat → String
  | Option.none => ""
  | Option.some n => if n = 0 then "" else toString n

/-- Candidate fingerprint used by both pages for dedup sets:
`${cand.candidate || ''}|${cand.sdpMid || ''}|${cand.sdpMLineIndex || ''}`. -/
def candKey (c : CandidateInit) : String :=
  jsOrEmptyStr c.candidate ++ "|" ++ jsOrEmptyStr c.sdpMid ++ "|" ++
    jsOrEmptyNum c.sdpMLineIndex

/-- Session description payloads handed to `setLocalDescription` /
`setRemoteDescription`. -/
inductive Desc
  | offer (sdp : String)
  | answer (sdp : String)
  | rollback
deriving DecidableEq, Repr

/-- The `RTCPeerConnection.signalingState` values the code branches on. -/
inductive SignalingState
  | stable
  | haveLocalOffer
  | haveRemoteOffer
deriving DecidableEq, Repr

/-- One primitive connection operation, recorded in the trace. -/
inductive ConnOp
  | setLocal (d : Desc)
  | setRemote (d : Desc)
  | addCandidate (c : CandidateInit)
deriving DecidableEq, Repr

/-- Model of an `RTCPeerConnection`: signaling state, the two descriptions,
and the trace of primitive operations performed on it (oldest first). -/
structure Conn where
  signalingState : SignalingState
  localDesc : Option Desc
  remoteDesc : Option Desc
  ops : List ConnOp
deriving DecidableEq, Repr

/-- A freshly constructed connection (`new RTCPeerConnection(pcConfig)`). -/
def newConn : Conn :=
  { signalingState := SignalingState.stable
    localDesc := Option.none
    remoteDesc := Option.none
    ops := [] }

/-- `pc.setLocalDescription(d)`: an offer moves to `have-local-offer`, an
answer to `stable`, a rollback clears the local description and returns to
`stable`. -/
def Conn.setLocalDescription (c : Conn) (d : Desc) : Conn :=
  match d with
  | Desc.offer s =>
      { c with signalingState := SignalingState.haveLocalOffer
               localDesc := Option.some (Desc.offer s)
               ops := c.ops ++ [ConnOp.setLocal (Desc.offer s)] }
  | Desc.answer s =>
      { c with signalingState := SignalingState.stable
               localDesc := Option.some (Desc.answer s)
               ops := c.ops ++ [ConnOp.setLocal (Desc.answer s)] }
  | Desc.rollback =>
      { c with signalingState := SignalingState.stable
               localDesc := Option.none
               ops := c.ops ++ [ConnOp.setLocal Desc.rollback] }

/-- `pc.setRemoteDescription(d)`: an offer moves to `have-remote-offer`, an
answer to `stable`. -/
def Conn.setRemoteDescription (c : Conn) (d : Desc) : Conn :=
  match d with
  | Desc.offer s =>
      { c with signalingState := SignalingState.haveRemoteOffer
               remoteDesc := Option.some (Desc.offer s)
               ops := c.ops ++ [ConnOp.setRemote (Desc.offer s)] }
  | Desc.answer s =>
      { c with signalingState := SignalingState.stable
               remoteDesc := Option.some (Desc.answer s)
               ops := c.ops ++ [ConnOp.setRemote (Desc.answer s)] }
  | Desc.rollback =>
      { c with ops := c.ops ++ [ConnOp.setRemote Desc.rollback] }

/-- `pc.addIceCandidate(c)`. -/
def Conn.addIceCandidate (c : Conn) (cand : CandidateInit) : Conn :=
  { c with ops := c.ops ++ [ConnOp.addCandidate cand] }

/-- Project the candidate out of a trace entry, when it is one. -/
def ConnOp.candidateOf : ConnOp → Option CandidateInit
  | ConnOp.addCandidate c => Option.some c
  | _ => Option.none

/-- The candidates applied to a connection, in application order. -/
def Conn.appliedCandidates (c : Conn) : List CandidateInit :=
  c.ops.filterMap ConnOp.candidateOf

/-- Role selection, from `createPeerConnection(peerId, myId < peerId)` in both
pages: the lexicographically smaller identifier initiates. -/
def isInitiator (myId peerId : String) : Bool := decide (myId < peerId)

/-- Politeness, from `const polite = myId > fromId` in both signaling
handlers: the greater identifier is polite. -/
def isPolite (myId fromId : String) : Bool := decide (myId > fromId)

/-- A relay `signal` payload (the four shapes of the envelope). -/
inductive Signal
  | offer (sdp : String)
  | answer (sdp : String)
  | candidate (c : CandidateInit)
  | candidates (cs : List CandidateInit)
deriving DecidableEq, Repr

/-- The per-peer state the signaling handler touches: the connection itself,
`makingOfferRef.current[fromId] === true`, the inbound candidate buffer
`iceCandidateQueues.current[fromId] || []`, and the received-fingerprint set
`receivedCandidateKeysRef.current[fromId] || new Set()` (modelled as the list
of keys in insertion order). -/
structure PeerState where
  conn : Conn
  makingOffer : Bool
  iceQueue : List CandidateInit
  recvKeys : List String
deriving DecidableEq, Repr

/-- `for (const c of queue) { await pc.addIceCandidate(new RTCIceCandidate(c)); }` -/
def drainQueue (c : Conn) (q : List CandidateInit) : Conn :=
  q.foldl Conn.addIceCandidate c

/-- Environment model of `pc.createAnswer()`: an answer derived from the
currently applied remote offer. -/
def createAnswerSdp (c : Conn) : String :=
  match c.remoteDesc with
  | Option.some (Desc.offer s) => "answer-to:" ++ s
  | _ => "answer"

/-- The dedup loop of the `signal.candidates` branch: fold the batch through
the received-fingerprint set, keeping the candidates whose key is new (keys of
kept candidates are added as the loop goes, so in-batch duplicates are also
dropped). Returns the updated key set and the kept candidates. -/
def dedupBatch (recvKeys : List String) (cs : List CandidateInit) :
    List String × List CandidateInit :=
  cs.foldl
    (fun acc c =>
      let k := candKey c
      if k ∈ acc.1 then acc else (acc.1 ++ [k], acc.2 ++ [c]))
    (recvKeys, [])

/-- The `signal.type === 'offer'` branch of the signaling handler (perfect
negotiation with rollback), identical in the game and lobby pages.  Returns
the new per-peer state and the list of signals written back to the relay. -/
def handleOffer (myId fromId : String) (st : PeerState) (sdp : String) :
    PeerState × List Signal :=
  let polite : Bool := decide (myId > fromId)
  let offerCollision : Bool :=
    st.makingOffer || decide (st.conn.signalingState ≠ SignalingState.stable)
  if offerCollision && !polite then (st, [])
  else
    let c0 :=
      if offerCollision && polite &&
          decide (st.conn.signalingState ≠ SignalingState.stable) then
        st.conn.setLocalDescription Desc.rollback
      else st.conn
    let c1 := c0.setRemoteDescription (Desc.offer sdp)
    let c2 := drainQueue c1 st.iceQueue
    let ans := createAnswerSdp c2
    let c3 := c2.setLocalDescription (Desc.answer ans)
    ({ st with conn := c3, iceQueue := [] }, [Signal.answer ans])

/-- The `signal.type === 'answer'` branch: applied only in
`have-local-offer`, then the candidate buffer is drained; otherwise a no-op. -/
def handleAnswer (st : PeerState) (sdp : String) : PeerState × List Signal :=
  if st.conn.signalingState = SignalingState.haveLocalOffer then
    let c1 := st.conn.setRemoteDescription (Desc.answer sdp)
    let c2 := drainQueue c1 st.iceQueue
    ({ st with conn := c2, iceQueue := [] }, [])
  else (st, [])

/-- The `signal.candidate` branch: apply immediately when a remote
description exists, otherwise buffer.  The received-fingerprint set is not
consulted or updated here. -/
def handleCandidate (st : PeerState) (c : CandidateInit) :
    PeerState × List Signal :=
  if st.conn.remoteDesc.isSome then
    ({ st with conn := st.conn.addIceCandidate c }, [])
  else
    ({ st with iceQueue := st.iceQueue ++ [c] }, [])

/-- The `signal.candidates` branch: dedup the batch against the per-peer
received-fingerprint set, then apply the kept candidates immediately or
buffer them. -/
def handleCandidates (st : PeerState) (cs : List CandidateInit) :
    PeerState × List Signal :=
  let kept := dedupBatch st.recvKeys cs
  if st.conn.remoteDesc.isSome then
    ({ st with conn := drainQueue st.conn kept.2, recvKeys := kept.1 }, [])
  else
    ({ st with iceQueue := st.iceQueue ++ kept.2, recvKeys := kept.1 }, [])

/-- The whole per-message signaling handler (the `if`/`else if` chain of the
`onSnapshot` callback in both pages). -/
def handleSignal (myId fromId : String) (st : PeerState) (sig : Signal) :
    PeerState × List Signal :=
  match sig with
  | Signal.offer sdp => handleOffer myId fromId st sdp
  | Signal.answer sdp => handleAnswer st sdp
  | Signal.candidate c => handleCandidate st c
  | Signal.candidates cs => handleCandidates st cs

/-- Example candidate used in concrete evaluations. -/
def cEx : CandidateInit :=
  { candidate := Option.some "candidate:1 1 udp 2122260223"
    sdpMid := Option.some "0"
    sdpMLineIndex := Option.some 0 }

/-- A second, distinct example candidate. -/
def cEx2 : CandidateInit :=
  { candidate := Option.some "candidate:2 1 tcp 1518280447"
    sdpMid := Option.some "0"
    sdpMLineIndex := Option.some 0 }

/-- A connection that has sent a local offer (`have-local-offer`). -/
def connHLO : Conn := newConn.setLocalDescription (Desc.offer "o1")

/-- A connection that has applied a remote offer. -/
def connRem : Conn := newConn.setRemoteDescription (Desc.offer "o2")

/-- The low-level connectivity states the recovery handlers branch on
(values of `iceConnectionState` / `connectionState` the code tests). -/
inductive ConnectivityState
  | failed
  | disconnected
  | connected
  | other
deriving DecidableEq, Repr

/-- The recovery action a connectivity state-change handler performs:
nothing, an ICE-restart offer through the normal send path
(`createOffer({ iceRestart: true })`, `setLocalDescription`, relay write), or
the lower-level `pc.restartIce()` primitive. -/
inductive RecoveryAction
  | none
  | restartOffer
  | restartIce
deriving DecidableEq, Repr

/-- The game page connectivity handlers (`pc.oniceconnectionstatechange` and
`pc.onconnectionstatechange`, which behave identically): on `failed` or
`disconnected`, only an initiator acts — an ICE-restart offer when the
signaling state is stable, `restartIce` otherwise. -/
def gameRecovery (initiator : Bool) (st : ConnectivityState)
    (sig : SignalingState) : RecoveryAction :=
  if (st = ConnectivityState.failed ∨ st = ConnectivityState.disconnected) ∧
      initiator = true then
    if sig = SignalingState.stable then RecoveryAction.restartOffer
    else RecoveryAction.restartIce
  else RecoveryAction.none

/-- The lobby page connectivity handler (`pc.oniceconnectionstatechange`):
it fires the ICE-restart offer on `failed` whenever the signaling state is
stable — the `initiator` flag is in scope in the closure but never
consulted — and does nothing on `disconnected` or in non-stable states. -/
def lobbyRecovery (initiator : Bool) (st : ConnectivityState)
    (sig : SignalingState) : RecoveryAction :=
  if st = ConnectivityState.failed then
    if sig = SignalingState.stable then RecoveryAction.restartOffer
    else RecoveryAction.none
  else RecoveryAction.none

/-- Association-list lookup, the model of `map[key]` / `Map.get(key)`. -/
def alGet {α : Type} : List (String × α) → String → Option α
  | [], _ => Option.none
  | (k, v) :: rest, q => if k = q then Option.some v else alGet rest q

/-- Association-list update, the model of `map[key] = v` / `Map.set`. -/
def alSet {α : Type} : List (String × α) → String → α → List (String × α)
  | [], q, v => [(q, v)]
  | (k, w) :: rest, q, v =>
      if k = q then (q, v) :: rest else (k, w) :: alSet rest q v

/-- Association-list removal, the model of `Map.delete(key)`. -/
def alErase {α : Type} (m : List (String × α)) (q : String) :
    List (String × α) :=
  m.filter (fun p => decide (p.1 ≠ q))

/-- Outcome of one `addDoc` relay write: success, rejection with code
`resource-exhausted`, or rejection with any other code. -/
inductive WriteOutcome
  | ok
  | rateLimited
  | failed
deriving DecidableEq, Repr

/-- State of the outbound candidate batcher: the per-peer already-sent
fingerprint sets (`sentCandidateKeysRef`), the per-peer outbound queues
(`outboundCandidateQueuesRef`), the shared backoff deadline
(`signalingBackoffUntilRef`, one value for all peers), and the log of
successful relay writes in order. -/
structure OutboundState where
  sentKeys : List (String × List String)
  outQueues : List (String × List CandidateInit)
  backoffUntil : Nat
  writes : List (String × List CandidateInit)
deriving DecidableEq, Repr

/-- The non-null branch of `pc.onicecandidate`: dedup against the
already-sent set, enqueue, and — when this is the very first queued candidate
— immediately flush the queue (`q.splice(0, q.length)`) unless the shared
backoff deadline has not passed; `outcome` is the result of that immediate
write when it is attempted. -/
def onIceCandidate (st : OutboundState) (peerId : String) (now : Nat)
    (outcome : WriteOutcome) (c : CandidateInit) : OutboundState :=
  let key := candKey c
  let sentSet := (alGet st.sentKeys peerId).getD []
  if key ∈ sentSet then st
  else
    let q := (alGet st.outQueues peerId).getD []
    let first := q.length = 0
    let q1 := q ++ [c]
    let st1 := { st with
      sentKeys := alSet st.sentKeys peerId (sentSet ++ [key])
      outQueues := alSet st.outQueues peerId q1 }
    if first then
      if now < st1.backoffUntil then st1
      else
        match outcome with
        | WriteOutcome.ok =>
            { st1 with
                outQueues := alSet st1.outQueues peerId []
                writes := st1.writes ++ [(peerId, q1)] }
        | WriteOutcome.rateLimited => { st1 with backoffUntil := now + 30000 }
        | WriteOutcome.failed => st1
    else st1

/-- One run of the batch-window timer callback (`async function flush()`):
nothing to do on an empty queue; reschedule without attempting a write while
the shared backoff deadline has not passed; otherwise attempt the write —
on success clear the queue, on `resource-exhausted` record the new backoff
deadline `now + 30000` and reschedule in 30000, on any other failure
reschedule in the short fixed 300 delay.  The second component is the delay
of the rescheduled timer, if any. -/
def flushTimer (st : OutboundState) (peerId : String) (now : Nat)
    (outcome : WriteOutcome) : OutboundState × Option Nat :=
  let list := (alGet st.outQueues peerId).getD []
  if list.length = 0 then (st, Option.none)
  else if now < st.backoffUntil then
    (st, Option.some (st.backoffUntil - now + 100))
  else
    match outcome with
    | WriteOutcome.ok =>
        ({ st with
            outQueues := alSet st.outQueues peerId []
            writes := st.writes ++ [(peerId, list)] }, Option.none)
    | WriteOutcome.rateLimited =>
        ({ st with backoffUntil := now + 30000 }, Option.some 30000)
    | WriteOutcome.failed => (st, Option.some 300)

/-- Number of relay writes addressed to peer `p` whose batch contains a
candidate with fingerprint `k`. -/
def writesWithKey (p k : String) (ws : List (String × List CandidateInit)) :
    Nat :=
  ws.countP (fun w =>
    decide (w.1 = p) && w.2.any (fun c => decide (candKey c = k)))

/-- The page-level per-peer state of the lobby implementation: the connection
table (`peerConnectionsRef`, a `Map`), the negotiation flags and inbound
buffers keyed by peer, the outbound batcher maps, the speaking-detector and
audio bookkeeping (`remoteStreamAnalyzersRef`, `speakingPeers`,
`remoteStreams` keys), and logs of connection constructions and closes. -/
structure LobbyState where
  peerConnections : List (String × Conn)
  makingOffer : List (String × Bool)
  iceQueues : List (String × List CandidateInit)
  recvKeys : List (String × List String)
  outQueues : List (String × List CandidateInit)
  sentKeys : List (String × List String)
  analyzers : List String
  speakingPeers : List String
  remoteStreams : List String
  createdLog : List String
  closedLog : List String
deriving DecidableEq, Repr

/-- `createPeerConnection(peerId, initiator)`: a no-op when the table already
has an entry for the peer, otherwise construct a fresh connection, store it
and record the construction. -/
def createPeerConnection (g : LobbyState) (peerId : String) : LobbyState :=
  if (alGet g.peerConnections peerId).isSome then g
  else
    { g with
        peerConnections := alSet g.peerConnections peerId newConn
        createdLog := g.createdLog ++ [peerId] }

/-- The teardown body of the lobby reconciliation loop for one departed peer:
close and remove the connection, detach the audio element, cancel and drop
the analyzer, and delete the speaking flag and remote stream entries.  The
candidate buffers, outbound queues and dedup-set maps are not touched. -/
def teardownPeer (g : LobbyState) (peerId : String) : LobbyState :=
  { g with
      peerConnections := alErase g.peerConnections peerId
      analyzers := g.analyzers.filter (fun p => decide (p ≠ peerId))
      speakingPeers := g.speakingPeers.filter (fun p => decide (p ≠ peerId))
      remoteStreams := g.remoteStreams.filter (fun p => decide (p ≠ peerId))
      closedLog := g.closedLog ++ [peerId] }

/-- The membership-reconciliation body of the lobby signaling effect: create
a connection for every present peer, then tear down every table entry whose
peer is no longer present. -/
def reconcile (g : LobbyState) (playerIds : List String) : LobbyState :=
  let g1 := playerIds.foldl createPeerConnection g
  let stale := (g1.peerConnections.filter
    (fun p => decide (p.1 ∉ playerIds))).map Prod.fst
  stale.foldl teardownPeer g1

/-- The per-message body of the `onSnapshot` relay subscription: look up the
sender's connection (`const pc = peerConnectionsRef.current.get(fromId); if
(!pc) return;`), discard the message when there is none, otherwise run the
signaling handler and store the updated per-peer state. -/
def handleRelay (myId : String) (g : LobbyState) (fromId : String)
    (sig : Signal) : LobbyState × List Signal :=
  match alGet g.peerConnections fromId with
  | Option.none => (g, [])
  | Option.some pc =>
      let st : PeerState :=
        { conn := pc
          makingOffer := (alGet g.makingOffer fromId).getD false
          iceQueue := (alGet g.iceQueues fromId).getD []
          recvKeys := (alGet g.recvKeys fromId).getD [] }
      let res := handleSignal myId fromId st sig
      ({ g with
          peerConnections := alSet g.peerConnections fromId res.1.conn
          iceQueues := alSet g.iceQueues fromId res.1.iceQueue
          recvKeys := alSet g.recvKeys fromId res.1.recvKeys }, res.2)

/-- An example outbound-batcher state: nothing sent, nothing queued. -/
def obEx : OutboundState :=
  { sentKeys := [], outQueues := [], backoffUntil := 0, writes := [] }

/-- An example outbound-batcher state with one queued candidate for "p". -/
def obExQ : OutboundState :=
  { sentKeys := [("p", [candKey cEx])]
    outQueues := [("p", [cEx])]
    backoffUntil := 0
    writes := [] }

/-- An example outbound-batcher state inside a backoff window. -/
def obExB : OutboundState :=
  { sentKeys := [("p", [candKey cEx])]
    outQueues := [("p", [cEx])]
    backoffUntil := 100
    writes := [] }

/-- An example lobby page state with live peer "b" and populated per-peer
buffers, queues, dedup sets and speaking-detector state. -/
def gEx : LobbyState :=
  { peerConnections := [("b", newConn)]
    makingOffer := [("b", false)]
    iceQueues := [("b", [cEx])]
    recvKeys := [("b", [candKey cEx])]
    outQueues := [("b", [cEx2])]
    sentKeys := [("b", [candKey cEx2])]
    analyzers := ["b"]
    speakingPeers := ["b"]
    remoteStreams := ["b"]
    createdLog := ["b"]
    closedLog := [] }

end ClutchParty

namespace ClutchParty

/-- Claim C1: for distinct peer identifiers, exactly one side is the initiator (the
smaller one), both sides compute the same conclusion from the pair, and the
polite role is exactly the complement of the initiator role. -/
theorem initiator_polite_roles (a b : String) (hne : a ≠ b) :
    (isInitiator a b = true ↔ a < b) ∧
    (isInitiator a b = !(isInitiator b a)) ∧
    (isPolite a b = !(isInitiator a b)) ∧
    (isPolite a b = isInitiator b a) := by
  constructor
  · simp [isInitiator]
  refine ⟨?_, ?_, ?_⟩
  · rcases lt_trichotomy a b with h | h | h
    · simp [isInitiator, h, not_lt.mpr (le_of_lt h)]
    · exact absurd h hne
    · simp [isInitiator, h, not_lt.mpr (le_of_lt h)]
  · rcases lt_trichotomy a b with h | h | h
    · simp [isInitiator, isPolite, h, not_lt.mpr (le_of_lt h)]
    · exact absurd h hne
    · simp [isInitiator, isPolite, h, not_lt.mpr (le_of_lt h)]
  · simp [isPolite, isInitiator]

/-! Basic facts about the connection trace and the drain loop. -/

theorem addIceCandidate_fields (c : Conn) (x : CandidateInit) :
    (c.addIceCandidate x).signalingState = c.signalingState ∧
    (c.addIceCandidate x).localDesc = c.localDesc ∧
    (c.addIceCandidate x).remoteDesc = c.remoteDesc ∧
    (c.addIceCandidate x).ops = c.ops ++ [ConnOp.addCandidate x] := by
  simp [Conn.addIceCandidate]

theorem drainQueue_ops (q : List CandidateInit) (c : Conn) :
    (drainQueue c q).ops = c.ops ++ q.map ConnOp.addCandidate := by
  induction q generalizing c with
  | nil => simp [drainQueue]
  | cons x xs ih =>
      have h := ih (c.addIceCandidate x)
      simp only [drainQueue, List.foldl_cons] at h ⊢
      rw [h]
      simp [Conn.addIceCandidate]

theorem drainQueue_signalingState (q : List CandidateInit) (c : Conn) :
    (drainQueue c q).signalingState = c.signalingState := by
  induction q generalizing c with
  | nil => simp [drainQueue]
  | cons x xs ih =>
      have h := ih (c.addIceCandidate x)
      simp only [drainQueue, List.foldl_cons] at h ⊢
      rw [h]
      simp [Conn.addIceCandidate]

theorem drainQueue_remoteDesc (q : List CandidateInit) (c : Conn) :
    (drainQueue c q).remoteDesc = c.remoteDesc := by
  induction q generalizing c with
  | nil => simp [drainQueue]
  | cons x xs ih =>
      have h := ih (c.addIceCandidate x)
      simp only [drainQueue, List.foldl_cons] at h ⊢
      rw [h]
      simp [Conn.addIceCandidate]

theorem filterMap_candidateOf_map (q : List CandidateInit) :
    List.filterMap ConnOp.candidateOf (q.map ConnOp.addCandidate) = q := by
  induction q with
  | nil => rfl
  | cons x xs ih => simpa [ConnOp.candidateOf] using ih

theorem filterMap_candidateOf_comp (q : List CandidateInit) :
    List.filterMap (ConnOp.candidateOf ∘ ConnOp.addCandidate) q = q := by
  induction q with
  | nil => rfl
  | cons x xs ih => simp [Function.comp, ConnOp.candidateOf, ih]

theorem appliedCandidates_drainQueue (q : List CandidateInit) (c : Conn) :
    (drainQueue c q).appliedCandidates = c.appliedCandidates ++ q := by
  simp [Conn.appliedCandidates, drainQueue_ops, List.filterMap_append,
    filterMap_candidateOf_map, filterMap_candidateOf_comp]

theorem appliedCandidates_setLocal (c : Conn) (d : Desc) :
    (c.setLocalDescription d).appliedCandidates = c.appliedCandidates := by
  cases d <;>
    simp [Conn.setLocalDescription, Conn.appliedCandidates,
      List.filterMap_append, ConnOp.candidateOf]

theorem appliedCandidates_setRemote (c : Conn) (d : Desc) :
    (c.setRemoteDescription d).appliedCandidates = c.appliedCandidates := by
  cases d <;>
    simp [Conn.setRemoteDescription, Conn.appliedCandidates,
      List.filterMap_append, ConnOp.candidateOf]

theorem appliedCandidates_addIce (c : Conn) (x : CandidateInit) :
    (c.addIceCandidate x).appliedCandidates = c.appliedCandidates ++ [x] := by
  simp [Conn.addIceCandidate, Conn.appliedCandidates, List.filterMap_append,
    ConnOp.candidateOf]

/-- The impolite side ignores a colliding offer entirely: no state change, no
message sent. -/
theorem handleOffer_ignored (myId fromId sdp : String) (st : PeerState)
    (hnp : ¬ myId > fromId)
    (hcol : st.makingOffer = true ∨
      st.conn.signalingState ≠ SignalingState.stable) :
    handleOffer myId fromId st sdp = (st, []) := by
  have hpol : decide (myId > fromId) = false := decide_eq_false hnp
  rcases hcol with hm | hs
  · simp only [handleOffer, hm, hpol, Bool.true_or, Bool.not_false,
      Bool.and_true]
    rfl
  · have hstate : decide (st.conn.signalingState ≠ SignalingState.stable) =
        true := decide_eq_true hs
    simp only [handleOffer, hstate, hpol, Bool.or_true, Bool.not_false,
      Bool.and_true]
    rfl

/-- The connection after accepting an offer on top of connection `c`:
remote offer applied, buffer `q` drained, answer created and applied. -/
def acceptedConn (c : Conn) (sdp : String) (q : List CandidateInit) : Conn :=
  let c2 := drainQueue (c.setRemoteDescription (Desc.offer sdp)) q
  c2.setLocalDescription (Desc.answer (createAnswerSdp c2))

/-- The answer sdp produced while accepting an offer on top of `c`. -/
def acceptedAnswer (c : Conn) (sdp : String) (q : List CandidateInit) : String :=
  createAnswerSdp (drainQueue (c.setRemoteDescription (Desc.offer sdp)) q)

/-- With a stable signaling state and either no local offer in progress or a
polite local side, the incoming offer is accepted with no rollback. -/
theorem handleOffer_accepted_stable (myId fromId sdp : String) (st : PeerState)
    (hs : st.conn.signalingState = SignalingState.stable)
    (hOK : st.makingOffer = false ∨ myId > fromId) :
    handleOffer myId fromId st sdp =
      ({ st with conn := acceptedConn st.conn sdp st.iceQueue, iceQueue := [] },
        [Signal.answer (acceptedAnswer st.conn sdp st.iceQueue)]) := by
  have hstate : decide (st.conn.signalingState ≠ SignalingState.stable) =
      false := by simp [hs]
  rcases hOK with hm | hp
  · simp only [handleOffer, hm, hstate, Bool.or_false, Bool.false_and,
      Bool.and_false, acceptedConn, acceptedAnswer]
    rfl
  · have hpol : decide (myId > fromId) = true := decide_eq_true hp
    simp only [handleOffer, hpol, hstate, Bool.or_false, Bool.not_true,
      Bool.and_false, acceptedConn, acceptedAnswer]
    rfl

/-- With a non-stable signaling state and a polite local side, the local
description is rolled back first, then the offer is accepted. -/
theorem handleOffer_accepted_rollback (myId fromId sdp : String)
    (st : PeerState)
    (hs : st.conn.signalingState ≠ SignalingState.stable)
    (hp : myId > fromId) :
    handleOffer myId fromId st sdp =
      ({ st with
          conn := acceptedConn (st.conn.setLocalDescription Desc.rollback) sdp
            st.iceQueue,
          iceQueue := [] },
        [Signal.answer (acceptedAnswer
          (st.conn.setLocalDescription Desc.rollback) sdp st.iceQueue)]) := by
  have hstate : decide (st.conn.signalingState ≠ SignalingState.stable) =
      true := decide_eq_true hs
  have hpol : decide (myId > fromId) = true := decide_eq_true hp
  simp only [handleOffer, hpol, hstate, Bool.or_true, Bool.not_true,
    Bool.and_false, Bool.and_true, acceptedConn, acceptedAnswer]
  rfl

/-- Trace of the connection after an accepted offer. -/
theorem acceptedConn_ops (c : Conn) (sdp : String) (q : List CandidateInit) :
    (acceptedConn c sdp q).ops =
      c.ops ++ [ConnOp.setRemote (Desc.offer sdp)]
        ++ q.map ConnOp.addCandidate
        ++ [ConnOp.setLocal (Desc.answer (acceptedAnswer c sdp q))] := by
  simp [acceptedConn, acceptedAnswer, Conn.setLocalDescription,
    Conn.setRemoteDescription, drainQueue_ops, List.append_assoc]

theorem acceptedConn_signalingState (c : Conn) (sdp : String)
    (q : List CandidateInit) :
    (acceptedConn c sdp q).signalingState = SignalingState.stable := by
  simp [acceptedConn, Conn.setLocalDescription]

theorem acceptedConn_remoteDesc (c : Conn) (sdp : String)
    (q : List CandidateInit) :
    (acceptedConn c sdp q).remoteDesc = Option.some (Desc.offer sdp) := by
  simp [acceptedConn, Conn.setLocalDescription, drainQueue_remoteDesc,
    Conn.setRemoteDescription]

theorem acceptedConn_appliedCandidates (c : Conn) (sdp : String)
    (q : List CandidateInit) :
    (acceptedConn c sdp q).appliedCandidates = c.appliedCandidates ++ q := by
  simp [acceptedConn, appliedCandidates_setLocal, appliedCandidates_drainQueue,
    appliedCandidates_setRemote]

/-- Witness for C1 at concrete identifiers. -/
theorem initiator_polite_roles_witness :
    ("alice" : String) ≠ "bob" ∧
      ((isInitiator "alice" "bob" = true ↔ ("alice" : String) < "bob") ∧
       (isInitiator "alice" "bob" = !(isInitiator "bob" "alice")) ∧
       (isPolite "alice" "bob" = !(isInitiator "alice" "bob")) ∧
       (isPolite "alice" "bob" = isInitiator "bob" "alice")) :=
  ⟨by decide, initiator_polite_roles "alice" "bob" (by decide)⟩

/-- Claim C2: during an offer collision (local side making an offer or
signaling state not stable) the impolite side ignores the incoming offer with
no state change and no message; the polite side rolls back the local
description first when the state is non-stable, then applies the remote
offer, drains and clears the candidate buffer, and creates and sends an
answer; without a collision the offer is accepted the same way on either
side (no rollback). -/
theorem offer_collision_resolution (myId fromId sdp : String)
    (st : PeerState) :
    (¬ myId > fromId →
      (st.makingOffer = true ∨
        st.conn.signalingState ≠ SignalingState.stable) →
      handleSignal myId fromId st (Signal.offer sdp) = (st, [])) ∧
    (st.conn.signalingState ≠ SignalingState.stable → myId > fromId →
      ∃ a : String,
        (handleSignal myId fromId st (Signal.offer sdp)).1.conn.ops =
          st.conn.ops ++ [ConnOp.setLocal Desc.rollback,
              ConnOp.setRemote (Desc.offer sdp)]
            ++ st.iceQueue.map ConnOp.addCandidate
            ++ [ConnOp.setLocal (Desc.answer a)] ∧
        (handleSignal myId fromId st (Signal.offer sdp)).1.iceQueue = [] ∧
        (handleSignal myId fromId st (Signal.offer sdp)).2 =
          [Signal.answer a] ∧
        (handleSignal myId fromId st (Signal.offer sdp)).1.conn.signalingState
          = SignalingState.stable) ∧
    (st.conn.signalingState = SignalingState.stable →
      (st.makingOffer = false ∨ myId > fromId) →
      ∃ a : String,
        (handleSignal myId fromId st (Signal.offer sdp)).1.conn.ops =
          st.conn.ops ++ [ConnOp.setRemote (Desc.offer sdp)]
            ++ st.iceQueue.map ConnOp.addCandidate
            ++ [ConnOp.setLocal (Desc.answer a)] ∧
        (handleSignal myId fromId st (Signal.offer sdp)).1.iceQueue = [] ∧
        (handleSignal myId fromId st (Signal.offer sdp)).2 =
          [Signal.answer a] ∧
        (handleSignal myId fromId st (Signal.offer sdp)).1.conn.signalingState
          = SignalingState.stable) := by
  refine ⟨?_, ?_, ?_⟩
  · intro hnp hcol
    exact handleOffer_ignored myId fromId sdp st hnp hcol
  · intro hs hp
    refine ⟨acceptedAnswer (st.conn.setLocalDescription Desc.rollback) sdp
      st.iceQueue, ?_, ?_, ?_, ?_⟩ <;>
      · rw [show handleSignal myId fromId st (Signal.offer sdp) =
            handleOffer myId fromId st sdp from rfl,
          handleOffer_accepted_rollback myId fromId sdp st hs hp]
        try simp [acceptedConn_ops, acceptedConn_signalingState,
          Conn.setLocalDescription, List.append_assoc]
  · intro hs hOK
    refine ⟨acceptedAnswer st.conn sdp st.iceQueue, ?_, ?_, ?_, ?_⟩ <;>
      · rw [show handleSignal myId fromId st (Signal.offer sdp) =
            handleOffer myId fromId st sdp from rfl,
          handleOffer_accepted_stable myId fromId sdp st hs hOK]
        try simp [acceptedConn_ops, acceptedConn_signalingState,
          List.append_assoc]

/-- Witness for C2: the three branches at concrete inputs ("a" < "b", so "a"
is impolite towards "b" and "b" is polite towards "a"). -/
theorem offer_collision_resolution_witness :
    (handleSignal "a" "b" (⟨newConn, true, [], []⟩ : PeerState)
        (Signal.offer "s") = ((⟨newConn, true, [], []⟩ : PeerState), [])) ∧
    (∃ a : String,
      (handleSignal "b" "a" (⟨connHLO, true, [cEx], []⟩ : PeerState)
          (Signal.offer "s")).1.conn.ops =
        connHLO.ops ++ [ConnOp.setLocal Desc.rollback,
            ConnOp.setRemote (Desc.offer "s")]
          ++ [cEx].map ConnOp.addCandidate
          ++ [ConnOp.setLocal (Desc.answer a)] ∧
      (handleSignal "b" "a" (⟨connHLO, true, [cEx], []⟩ : PeerState)
          (Signal.offer "s")).1.iceQueue = [] ∧
      (handleSignal "b" "a" (⟨connHLO, true, [cEx], []⟩ : PeerState)
          (Signal.offer "s")).2 = [Signal.answer a] ∧
      (handleSignal "b" "a" (⟨connHLO, true, [cEx], []⟩ : PeerState)
          (Signal.offer "s")).1.conn.signalingState =
        SignalingState.stable) ∧
    (∃ a : String,
      (handleSignal "a" "b" (⟨newConn, false, [cEx], []⟩ : PeerState)
          (Signal.offer "s")).1.conn.ops =
        newConn.ops ++ [ConnOp.setRemote (Desc.offer "s")]
          ++ [cEx].map ConnOp.addCandidate
          ++ [ConnOp.setLocal (Desc.answer a)] ∧
      (handleSignal "a" "b" (⟨newConn, false, [cEx], []⟩ : PeerState)
          (Signal.offer "s")).1.iceQueue = [] ∧
      (handleSignal "a" "b" (⟨newConn, false, [cEx], []⟩ : PeerState)
          (Signal.offer "s")).2 = [Signal.answer a] ∧
      (handleSignal "a" "b" (⟨newConn, false, [cEx], []⟩ : PeerState)
          (Signal.offer "s")).1.conn.signalingState =
        SignalingState.stable) :=
  ⟨(offer_collision_resolution "a" "b" "s"
      (⟨newConn, true, [], []⟩ : PeerState)).1
     (by rw [gt_iff_lt, String.lt_iff_toList_lt]; decide) (Or.inl rfl),
   (offer_collision_resolution "b" "a" "s"
      (⟨connHLO, true, [cEx], []⟩ : PeerState)).2.1 (by decide)
     (by rw [gt_iff_lt, String.lt_iff_toList_lt]; decide),
   (offer_collision_resolution "a" "b" "s"
      (⟨newConn, false, [cEx], []⟩ : PeerState)).2.2 rfl (Or.inl rfl)⟩

/-- The dedup fold of the batch branch on a batch of entirely fresh,
pairwise-distinct candidates keeps all of them in order. -/
theorem dedupBatch_fresh (cs : List CandidateInit) (keys : List String)
    (acc : List CandidateInit)
    (hfresh : ∀ c ∈ cs, candKey c ∉ keys)
    (hnd : (cs.map candKey).Nodup) :
    cs.foldl (fun acc2 c =>
        let k := candKey c
        if k ∈ acc2.1 then acc2 else (acc2.1 ++ [k], acc2.2 ++ [c]))
      (keys, acc) = (keys ++ cs.map candKey, acc ++ cs) := by
  induction cs generalizing keys acc with
  | nil => simp
  | cons c cs ih =>
      have hk : candKey c ∉ keys := hfresh c (List.mem_cons_self _ _)
      have hni := (List.nodup_cons.mp hnd).1
      have hnd2 := (List.nodup_cons.mp hnd).2
      have hfresh2 : ∀ x ∈ cs, candKey x ∉ keys ++ [candKey c] := by
        intro x hx
        simp only [List.mem_append, List.mem_singleton, not_or]
        exact ⟨hfresh x (List.mem_cons_of_mem _ hx),
          fun hh => hni (hh ▸ List.mem_map_of_mem candKey hx)⟩
      simp only [List.foldl_cons]
      rw [if_neg hk, ih (keys ++ [candKey c]) (acc ++ [c]) hfresh2 hnd2]
      simp

/-- Claim C3: a candidate arriving while the remote description is absent is
appended to the buffer (connection untouched) — this also holds entrywise
for a batch of fresh candidates; one arriving while the remote description
exists is applied immediately; accepting an offer or applying an answer
extends the applied-candidate trace by exactly the buffered sequence in
order and clears the buffer, so no buffered candidate is dropped or applied
more than once. -/
theorem candidate_buffering (myId fromId sdp : String) (st : PeerState)
    (c : CandidateInit) (cs : List CandidateInit) :
    (st.conn.remoteDesc = Option.none →
      handleSignal myId fromId st (Signal.candidate c) =
        ({ st with iceQueue := st.iceQueue ++ [c] }, [])) ∧
    (st.conn.remoteDesc.isSome = true →
      handleSignal myId fromId st (Signal.candidate c) =
        ({ st with conn := st.conn.addIceCandidate c }, [])) ∧
    ((st.makingOffer = false ∧
        st.conn.signalingState = SignalingState.stable) ∨ myId > fromId →
      (handleSignal myId fromId st (Signal.offer sdp)).1.conn.appliedCandidates
          = st.conn.appliedCandidates ++ st.iceQueue ∧
        (handleSignal myId fromId st (Signal.offer sdp)).1.iceQueue = []) ∧
    (st.conn.signalingState = SignalingState.haveLocalOffer →
      (handleSignal myId fromId st (Signal.answer sdp)).1.conn.appliedCandidates
          = st.conn.appliedCandidates ++ st.iceQueue ∧
        (handleSignal myId fromId st (Signal.answer sdp)).1.iceQueue = []) ∧
    ((∀ x ∈ cs, candKey x ∉ st.recvKeys) → (cs.map candKey).Nodup →
      st.conn.remoteDesc = Option.none →
      handleSignal myId fromId st (Signal.candidates cs) =
        ({ st with
            iceQueue := st.iceQueue ++ cs
            recvKeys := st.recvKeys ++ cs.map candKey }, [])) := by
  refine ⟨?_, ?_, ?_, ?_, ?_⟩
  · intro h
    simp [handleSignal, handleCandidate, h]
  · intro h
    simp [handleSignal, handleCandidate, h]
  · intro hacc
    by_cases hs : st.conn.signalingState = SignalingState.stable
    · have hOK : st.makingOffer = false ∨ myId > fromId := by
        rcases hacc with ⟨hm, _⟩ | hp
        · exact Or.inl hm
        · exact Or.inr hp
      rw [show handleSignal myId fromId st (Signal.offer sdp) =
            handleOffer myId fromId st sdp from rfl,
        handleOffer_accepted_stable myId fromId sdp st hs hOK]
      simp [acceptedConn_appliedCandidates]
    · have hp : myId > fromId := by
        rcases hacc with ⟨_, hst⟩ | hp
        · exact absurd hst hs
        · exact hp
      rw [show handleSignal myId fromId st (Signal.offer sdp) =
            handleOffer myId fromId st sdp from rfl,
        handleOffer_accepted_rollback myId fromId sdp st hs hp]
      simp [acceptedConn_appliedCandidates, appliedCandidates_setLocal]
  · intro h
    constructor <;>
      simp [handleSignal, handleAnswer, h, appliedCandidates_drainQueue,
        appliedCandidates_setRemote]
  · intro hfresh hnd hrd
    have hd : dedupBatch st.recvKeys cs =
        (st.recvKeys ++ cs.map candKey, cs) := by
      simpa [dedupBatch] using
        dedupBatch_fresh cs st.recvKeys [] hfresh hnd
    simp [handleSignal, handleCandidates, hd, hrd]

/-- Witness for C3: all five branches at concrete inputs. -/
theorem candidate_buffering_witness :
    (handleSignal "a" "b" (⟨newConn, false, [cEx], []⟩ : PeerState)
        (Signal.candidate cEx2) =
      ({ (⟨newConn, false, [cEx], []⟩ : PeerState) with
          iceQueue := [cEx] ++ [cEx2] }, [])) ∧
    (handleSignal "a" "b" (⟨connRem, false, [], []⟩ : PeerState)
        (Signal.candidate cEx) =
      ({ (⟨connRem, false, [], []⟩ : PeerState) with
          conn := connRem.addIceCandidate cEx }, [])) ∧
    ((handleSignal "a" "b" (⟨newConn, false, [cEx, cEx2], []⟩ : PeerState)
        (Signal.offer "s")).1.conn.appliedCandidates =
      newConn.appliedCandidates ++ [cEx, cEx2] ∧
      (handleSignal "a" "b" (⟨newConn, false, [cEx, cEx2], []⟩ : PeerState)
        (Signal.offer "s")).1.iceQueue = []) ∧
    ((handleSignal "a" "b" (⟨connHLO, false, [cEx, cEx2], []⟩ : PeerState)
        (Signal.answer "s")).1.conn.appliedCandidates =
      connHLO.appliedCandidates ++ [cEx, cEx2] ∧
      (handleSignal "a" "b" (⟨connHLO, false, [cEx, cEx2], []⟩ : PeerState)
        (Signal.answer "s")).1.iceQueue = []) ∧
    (handleSignal "a" "b" (⟨newConn, false, [], []⟩ : PeerState)
        (Signal.candidates [cEx, cEx2]) =
      ({ (⟨newConn, false, [], []⟩ : PeerState) with
          iceQueue := [] ++ [cEx, cEx2]
          recvKeys := [] ++ [cEx, cEx2].map candKey }, [])) :=
  ⟨(candidate_buffering "a" "b" "s"
      (⟨newConn, false, [cEx], []⟩ : PeerState) cEx2 []).1 rfl,
   (candidate_buffering "a" "b" "s"
      (⟨connRem, false, [], []⟩ : PeerState) cEx []).2.1 rfl,
   (candidate_buffering "a" "b" "s"
      (⟨newConn, false, [cEx, cEx2], []⟩ : PeerState) cEx []).2.2.1
     (Or.inl ⟨rfl, rfl⟩),
   (candidate_buffering "a" "b" "s"
      (⟨connHLO, false, [cEx, cEx2], []⟩ : PeerState) cEx []).2.2.2.1 rfl,
   (candidate_buffering "a" "b" "s"
      (⟨newConn, false, [], []⟩ : PeerState) cEx [cEx, cEx2]).2.2.2.2
     (by decide) (by decide) rfl⟩

/-- Claim C4: an incoming answer is applied only in `have-local-offer`; in
any other signaling state it is discarded as a no-op that mutates nothing and
raises no error (the handler is total and returns the state unchanged). -/
theorem stale_answer_rejected (myId fromId sdp : String) (st : PeerState) :
    (st.conn.signalingState ≠ SignalingState.haveLocalOffer →
      handleSignal myId fromId st (Signal.answer sdp) = (st, [])) ∧
    (st.conn.signalingState = SignalingState.haveLocalOffer →
      (handleSignal myId fromId st (Signal.answer sdp)).1.conn.remoteDesc =
        Option.some (Desc.answer sdp) ∧
      (handleSignal myId fromId st (Signal.answer sdp)).1.conn.signalingState
        = SignalingState.stable ∧
      (handleSignal myId fromId st (Signal.answer sdp)).2 = []) := by
  constructor
  · intro h
    simp [handleSignal, handleAnswer, h]
  · intro h
    refine ⟨?_, ?_, ?_⟩ <;>
      simp [handleSignal, handleAnswer, h, drainQueue_remoteDesc,
        drainQueue_signalingState, Conn.setRemoteDescription]

/-- Witness for C4: a stale answer in the `stable` state is a no-op; a timely
answer in `have-local-offer` is applied. -/
theorem stale_answer_rejected_witness :
    (handleSignal "a" "b" (⟨newConn, false, [cEx], ["k"]⟩ : PeerState)
        (Signal.answer "s") =
      ((⟨newConn, false, [cEx], ["k"]⟩ : PeerState), [])) ∧
    ((handleSignal "a" "b" (⟨connHLO, false, [], []⟩ : PeerState)
        (Signal.answer "s")).1.conn.remoteDesc =
      Option.some (Desc.answer "s") ∧
      (handleSignal "a" "b" (⟨connHLO, false, [], []⟩ : PeerState)
        (Signal.answer "s")).1.conn.signalingState = SignalingState.stable ∧
      (handleSignal "a" "b" (⟨connHLO, false, [], []⟩ : PeerState)
        (Signal.answer "s")).2 = []) :=
  ⟨(stale_answer_rejected "a" "b" "s"
      (⟨newConn, false, [cEx], ["k"]⟩ : PeerState)).1 (by decide),
   (stale_answer_rejected "a" "b" "s"
      (⟨connHLO, false, [], []⟩ : PeerState)).2 rfl⟩

/-- Claim C10: single-candidate messages bypass the received-fingerprint set:
the set is neither consulted nor updated by the `signal.candidate` branch, so
a redelivered single candidate is applied (or buffered) a second time, while
a redelivered batched candidate is dropped by the set. -/
theorem single_candidate_bypasses_dedup (myId fromId : String)
    (st : PeerState) (c : CandidateInit) :
    ((handleSignal myId fromId st (Signal.candidate c)).1.recvKeys =
      st.recvKeys) ∧
    (st.conn.remoteDesc.isSome = true →
      (handleSignal myId fromId
        ((handleSignal myId fromId st (Signal.candidate c)).1)
        (Signal.candidate c)).1.conn.appliedCandidates =
          st.conn.appliedCandidates ++ [c, c]) ∧
    (st.conn.remoteDesc = Option.none →
      (handleSignal myId fromId
        ((handleSignal myId fromId st (Signal.candidate c)).1)
        (Signal.candidate c)).1.iceQueue = st.iceQueue ++ [c, c]) ∧
    (candKey c ∈ st.recvKeys →
      handleSignal myId fromId st (Signal.candidates [c]) = (st, [])) := by
  refine ⟨?_, ?_, ?_, ?_⟩
  · cases h : st.conn.remoteDesc.isSome <;>
      simp [handleSignal, handleCandidate, h]
  · intro h
    simp [handleSignal, handleCandidate, h, Conn.addIceCandidate,
      appliedCandidates_addIce, Conn.appliedCandidates,
      List.filterMap_append, ConnOp.candidateOf]
  · intro h
    simp [handleSignal, handleCandidate, h]
  · intro hmem
    have hd : dedupBatch st.recvKeys [c] = (st.recvKeys, []) := by
      simp [dedupBatch, hmem]
    simp only [handleSignal, handleCandidates, hd]
    split <;> simp [drainQueue]

/-- Witness for C10: with a remote description present, a redelivered single
candidate is applied twice while a redelivered batch of the same candidate is
dropped. -/
theorem single_candidate_bypasses_dedup_witness :
    ((handleSignal "a" "b" (⟨connRem, false, [], [candKey cEx]⟩ : PeerState)
        (Signal.candidate cEx)).1.recvKeys = [candKey cEx]) ∧
    ((handleSignal "a" "b"
        ((handleSignal "a" "b"
          (⟨connRem, false, [], [candKey cEx]⟩ : PeerState)
          (Signal.candidate cEx)).1)
        (Signal.candidate cEx)).1.conn.appliedCandidates =
      connRem.appliedCandidates ++ [cEx, cEx]) ∧
    (handleSignal "a" "b" (⟨connRem, false, [], [candKey cEx]⟩ : PeerState)
        (Signal.candidates [cEx]) =
      ((⟨connRem, false, [], [candKey cEx]⟩ : PeerState), [])) :=
  ⟨(single_candidate_bypasses_dedup "a" "b"
      (⟨connRem, false, [], [candKey cEx]⟩ : PeerState) cEx).1,
   (single_candidate_bypasses_dedup "a" "b"
      (⟨connRem, false, [], [candKey cEx]⟩ : PeerState) cEx).2.1 rfl,
   (single_candidate_bypasses_dedup "a" "b"
      (⟨connRem, false, [], [candKey cEx]⟩ : PeerState) cEx).2.2.2
     (by simp)⟩

/-- Counterexample for C5: the claim says the non-initiator side never
attempts recovery, but the lobby page recovery handler does not consult the
initiator flag — a non-initiator connection observing `failed` in the
`stable` signaling state issues an ICE-restart offer. -/
theorem lobby_recovery_counterexample :
    lobbyRecovery false ConnectivityState.failed SignalingState.stable =
      RecoveryAction.restartOffer := rfl

/-- Claim C5 (amended): in the game page only the initiator attempts
recovery on a `failed` or `disconnected` connectivity state — an ICE-restart
offer through the normal send path when the connection is stable, the
lower-level restart primitive otherwise — and the non-initiator never does;
in the lobby page the recovery handler runs regardless of the initiator
flag: it issues the ICE-restart offer on `failed` while stable and does
nothing in every other case. -/
theorem recovery_initiator_only (st : ConnectivityState)
    (sig : SignalingState) (b : Bool) :
    (gameRecovery false st sig = RecoveryAction.none) ∧
    (st = ConnectivityState.failed ∨ st = ConnectivityState.disconnected →
      gameRecovery true st sig =
        (if sig = SignalingState.stable then RecoveryAction.restartOffer
         else RecoveryAction.restartIce)) ∧
    (st ≠ ConnectivityState.failed ∨ sig ≠ SignalingState.stable →
      lobbyRecovery b st sig = RecoveryAction.none) ∧
    (lobbyRecovery b ConnectivityState.failed SignalingState.stable =
      RecoveryAction.restartOffer) := by
  refine ⟨?_, ?_, ?_, rfl⟩
  · simp [gameRecovery]
  · intro h
    rcases h with h | h <;> subst h <;> simp [gameRecovery]
  · intro h
    rcases h with h | h <;> simp [lobbyRecovery, h]

/-- Witness for C5 (amended) at concrete states. -/
theorem recovery_initiator_only_witness :
    (gameRecovery false ConnectivityState.failed SignalingState.stable =
      RecoveryAction.none) ∧
    (gameRecovery true ConnectivityState.failed SignalingState.haveLocalOffer
      = (if SignalingState.haveLocalOffer = SignalingState.stable then
          RecoveryAction.restartOffer else RecoveryAction.restartIce)) ∧
    (lobbyRecovery true ConnectivityState.disconnected SignalingState.stable
      = RecoveryAction.none) ∧
    (lobbyRecovery false ConnectivityState.failed SignalingState.stable =
      RecoveryAction.restartOffer) :=
  ⟨(recovery_initiator_only ConnectivityState.failed
      SignalingState.stable false).1,
   (recovery_initiator_only ConnectivityState.failed
      SignalingState.haveLocalOffer true).2.1 (Or.inl rfl),
   (recovery_initiator_only ConnectivityState.disconnected
      SignalingState.stable true).2.2.1 (Or.inl (by decide)),
   (recovery_initiator_only ConnectivityState.failed
      SignalingState.stable false).2.2.2⟩

/-! Association-list and batcher lemmas. -/

theorem alGet_alSet {α : Type} (m : List (String × α)) (k : String) (v : α)
    (q : String) :
    alGet (alSet m k v) q = if k = q then Option.some v else alGet m q := by
  induction m with
  | nil => simp [alSet, alGet]
  | cons hd rest ih =>
      obtain ⟨k1, v1⟩ := hd
      by_cases h1 : k1 = k
      · subst h1
        by_cases h2 : k1 = q <;> simp [alSet, alGet, h2]
      · by_cases h2 : k1 = q
        · subst h2
          have hkq : k ≠ k1 := fun hh => h1 hh.symm
          simp [alSet, alGet, h1, hkq]
        · simp [alSet, alGet, h1, h2, ih]

/-- A candidate whose fingerprint was already sent to this peer is rejected
outright by the batcher. -/
theorem onIceCandidate_dup (st : OutboundState) (p : String) (now : Nat)
    (o : WriteOutcome) (c : CandidateInit)
    (h : candKey c ∈ (alGet st.sentKeys p).getD []) :
    onIceCandidate st p now o c = st := by
  simp [onIceCandidate, h]

/-- Enqueuing a fresh candidate appends its fingerprint to the peer's sent
set, whichever of the flush paths is taken. -/
theorem onIceCandidate_sentKeys (st : OutboundState) (p : String) (now : Nat)
    (o : WriteOutcome) (c : CandidateInit)
    (h : candKey c ∉ (alGet st.sentKeys p).getD []) :
    (alGet (onIceCandidate st p now o c).sentKeys p).getD [] =
      (alGet st.sentKeys p).getD [] ++ [candKey c] := by
  simp only [onIceCandidate]
  rw [if_neg h]
  split
  · split
    · simp [alGet_alSet]
    · split <;> simp [alGet_alSet]
  · simp [alGet_alSet]

/-- During a backoff window the batcher performs no write. -/
theorem onIceCandidate_writes_backoff (st : OutboundState) (p : String)
    (now : Nat) (o : WriteOutcome) (c : CandidateInit)
    (h : now < st.backoffUntil) :
    (onIceCandidate st p now o c).writes = st.writes := by
  by_cases hk : candKey c ∈ (alGet st.sentKeys p).getD []
  · rw [onIceCandidate_dup st p now o c hk]
  · simp only [onIceCandidate]
    rw [if_neg hk]
    split
    · simp [h]
    · simp

theorem flushTimer_suppressed (st : OutboundState) (p : String) (now : Nat)
    (o : WriteOutcome) (h : now < st.backoffUntil) :
    (flushTimer st p now o).1 = st := by
  by_cases hlen : ((alGet st.outQueues p).getD []).length = 0
  · simp [flushTimer, hlen]
  · simp [flushTimer, hlen, h]

theorem flushTimer_suppressed_delay (st : OutboundState) (p : String)
    (now : Nat) (o : WriteOutcome)
    (h1 : (alGet st.outQueues p).getD [] ≠ []) (h2 : now < st.backoffUntil) :
    flushTimer st p now o =
      (st, Option.some (st.backoffUntil - now + 100)) := by
  have hlen : ¬ ((alGet st.outQueues p).getD []).length = 0 := by
    simpa [List.length_eq_zero] using h1
  simp [flushTimer, hlen, h2]

theorem flushTimer_rateLimited (st : OutboundState) (p : String) (now : Nat)
    (h1 : (alGet st.outQueues p).getD [] ≠ [])
    (h2 : ¬ now < st.backoffUntil) :
    flushTimer st p now WriteOutcome.rateLimited =
      ({ st with backoffUntil := now + 30000 }, Option.some 30000) := by
  have hlen : ¬ ((alGet st.outQueues p).getD []).length = 0 := by
    simpa [List.length_eq_zero] using h1
  simp [flushTimer, hlen, h2]

theorem flushTimer_ok (st : OutboundState) (p : String) (now : Nat)
    (h1 : (alGet st.outQueues p).getD [] ≠ [])
    (h2 : ¬ now < st.backoffUntil) :
    flushTimer st p now WriteOutcome.ok =
      ({ st with
          outQueues := alSet st.outQueues p []
          writes := st.writes ++ [(p, (alGet st.outQueues p).getD [])] },
        Option.none) := by
  have hlen : ¬ ((alGet st.outQueues p).getD []).length = 0 := by
    simpa [List.length_eq_zero] using h1
  simp [flushTimer, hlen, h2]

theorem flushTimer_failed (st : OutboundState) (p : String) (now : Nat)
    (h1 : (alGet st.outQueues p).getD [] ≠ [])
    (h2 : ¬ now < st.backoffUntil) :
    flushTimer st p now WriteOutcome.failed = (st, Option.some 300) := by
  have hlen : ¬ ((alGet st.outQueues p).getD []).length = 0 := by
    simpa [List.length_eq_zero] using h1
  simp [flushTimer, hlen, h2]

/-- Claim C7: the batcher dedups by fingerprint per peer: a candidate whose
fingerprint is in the peer's already-sent set is rejected outright with no
state change; enqueuing a fresh candidate records its fingerprint so a second
enqueue of the same fingerprint is a no-op; and the immediate flush of a
first candidate (empty queue, no backoff, successful write) produces exactly
one additional relay write containing that fingerprint and leaves the queue
empty, so exactly one relay write ever contains it. -/
theorem outbound_dedup (st : OutboundState) (p : String) (now now2 : Nat)
    (o o2 : WriteOutcome) (c : CandidateInit) :
    (candKey c ∈ (alGet st.sentKeys p).getD [] →
      onIceCandidate st p now o c = st) ∧
    (candKey c ∉ (alGet st.sentKeys p).getD [] →
      onIceCandidate (onIceCandidate st p now o c) p now2 o2 c =
        onIceCandidate st p now o c) ∧
    (candKey c ∉ (alGet st.sentKeys p).getD [] →
      (alGet st.outQueues p).getD [] = [] →
      st.backoffUntil ≤ now →
      writesWithKey p (candKey c)
          (onIceCandidate st p now WriteOutcome.ok c).writes =
        writesWithKey p (candKey c) st.writes + 1 ∧
      (alGet (onIceCandidate st p now WriteOutcome.ok c).outQueues p).getD []
        = []) := by
  refine ⟨fun h => onIceCandidate_dup st p now o c h, ?_, ?_⟩
  · intro h
    apply onIceCandidate_dup
    rw [onIceCandidate_sentKeys st p now o c h]
    exact List.mem_append_right _ (by simp)
  · intro hk hq hb
    have hnlt : ¬ now < st.backoffUntil := not_lt.mpr hb
    constructor
    · simp only [onIceCandidate, hq]
      rw [if_neg hk]
      simp [hnlt, writesWithKey, List.countP_append]
    · simp only [onIceCandidate, hq]
      rw [if_neg hk]
      simp [hnlt, alGet_alSet]

/-- Witness for C7 at concrete batcher states. -/
theorem outbound_dedup_witness :
    (onIceCandidate obExQ "p" 5 WriteOutcome.ok cEx = obExQ) ∧
    (onIceCandidate (onIceCandidate obEx "p" 5 WriteOutcome.ok cEx) "p" 6
        WriteOutcome.ok cEx =
      onIceCandidate obEx "p" 5 WriteOutcome.ok cEx) ∧
    (writesWithKey "p" (candKey cEx)
        (onIceCandidate obEx "p" 5 WriteOutcome.ok cEx).writes =
      writesWithKey "p" (candKey cEx) obEx.writes + 1 ∧
      (alGet (onIceCandidate obEx "p" 5 WriteOutcome.ok cEx).outQueues
        "p").getD [] = []) :=
  ⟨(outbound_dedup obExQ "p" 5 6 WriteOutcome.ok WriteOutcome.ok cEx).1
     (by decide),
   (outbound_dedup obEx "p" 5 6 WriteOutcome.ok WriteOutcome.ok cEx).2.1
     (by decide),
   (outbound_dedup obEx "p" 5 6 WriteOutcome.ok WriteOutcome.ok cEx).2.2
     (by decide) (by decide) (by decide)⟩

/-- Claim C8: a rate-limited relay write at time T records the shared
backoff deadline T + 30000 without writing; while the current time is before
the deadline no flush for any peer writes (the state is unchanged and the
timer is rescheduled past the deadline) and the immediate-send path writes
nothing either; after the deadline passes a flush with a successful write
resumes, a repeated rate-limit failure pushes the deadline again and
reschedules by the 30000 backoff, and a non-rate-limit failure leaves the
state unchanged and reschedules after the short fixed 300 delay. -/
theorem backoff_suppression (st : OutboundState) (p q : String)
    (tT now : Nat) (o : WriteOutcome) (c : CandidateInit) :
    ((alGet st.outQueues p).getD [] ≠ [] → st.backoffUntil ≤ tT →
      (flushTimer st p tT WriteOutcome.rateLimited).1.backoffUntil =
          tT + 30000 ∧
        (flushTimer st p tT WriteOutcome.rateLimited).1.writes = st.writes ∧
        (flushTimer st p tT WriteOutcome.rateLimited).2 =
          Option.some 30000) ∧
    (now < st.backoffUntil →
      (flushTimer st q now o).1 = st ∧
      ((alGet st.outQueues q).getD [] ≠ [] →
        (flushTimer st q now o).2 =
          Option.some (st.backoffUntil - now + 100)) ∧
      (onIceCandidate st q now o c).writes = st.writes) ∧
    ((alGet st.outQueues p).getD [] ≠ [] → st.backoffUntil ≤ tT →
      now < tT + 30000 →
      (flushTimer (flushTimer st p tT WriteOutcome.rateLimited).1 q now
          o).1.writes = st.writes ∧
      (onIceCandidate (flushTimer st p tT WriteOutcome.rateLimited).1 q now
          o c).writes = st.writes) ∧
    (st.backoffUntil ≤ now → (alGet st.outQueues q).getD [] ≠ [] →
      (flushTimer st q now WriteOutcome.ok).1.writes =
          st.writes ++ [(q, (alGet st.outQueues q).getD [])] ∧
        (flushTimer st q now WriteOutcome.ok).2 = Option.none) ∧
    (st.backoffUntil ≤ now → (alGet st.outQueues q).getD [] ≠ [] →
      flushTimer st q now WriteOutcome.failed = (st, Option.some 300)) := by
  refine ⟨?_, ?_, ?_, ?_, ?_⟩
  · intro h1 h2
    rw [flushTimer_rateLimited st p tT h1 (not_lt.mpr h2)]
    exact ⟨rfl, rfl, rfl⟩
  · intro h
    exact ⟨flushTimer_suppressed st q now o h,
      fun h1 => by rw [flushTimer_suppressed_delay st q now o h1 h],
      onIceCandidate_writes_backoff st q now o c h⟩
  · intro h1 h2 h3
    rw [flushTimer_rateLimited st p tT h1 (not_lt.mpr h2)]
    constructor
    · rw [flushTimer_suppressed _ q now o (by simpa using h3)]
    · rw [onIceCandidate_writes_backoff _ q now o c (by simpa using h3)]
  · intro h1 h2
    rw [flushTimer_ok st q now h2 (not_lt.mpr h1)]
    exact ⟨rfl, rfl⟩
  · intro h1 h2
    exact flushTimer_failed st q now h2 (not_lt.mpr h1)

/-- Witness for C8 at concrete batcher states and times. -/
theorem backoff_suppression_witness :
    ((flushTimer obExQ "p" 7 WriteOutcome.rateLimited).1.backoffUntil =
        7 + 30000 ∧
      (flushTimer obExQ "p" 7 WriteOutcome.rateLimited).1.writes =
        obExQ.writes ∧
      (flushTimer obExQ "p" 7 WriteOutcome.rateLimited).2 =
        Option.some 30000) ∧
    ((flushTimer obExB "p" 50 WriteOutcome.ok).1 = obExB ∧
      ((alGet obExB.outQueues "p").getD [] ≠ [] →
        (flushTimer obExB "p" 50 WriteOutcome.ok).2 =
          Option.some (obExB.backoffUntil - 50 + 100)) ∧
      (onIceCandidate obExB "p" 50 WriteOutcome.ok cEx2).writes =
        obExB.writes) ∧
    ((flushTimer (flushTimer obExQ "p" 7 WriteOutcome.rateLimited).1 "p" 20
        WriteOutcome.ok).1.writes = obExQ.writes ∧
      (onIceCandidate (flushTimer obExQ "p" 7 WriteOutcome.rateLimited).1 "p"
        20 WriteOutcome.ok cEx2).writes = obExQ.writes) ∧
    ((flushTimer obExQ "p" 9 WriteOutcome.ok).1.writes =
        obExQ.writes ++ [("p", (alGet obExQ.outQueues "p").getD [])] ∧
      (flushTimer obExQ "p" 9 WriteOutcome.ok).2 = Option.none) ∧
    (flushTimer obExQ "p" 9 WriteOutcome.failed =
      (obExQ, Option.some 300)) :=
  ⟨(backoff_suppression obExQ "p" "p" 7 20 WriteOutcome.ok cEx2).1
     (by decide) (by decide),
   (backoff_suppression obExB "p" "p" 7 50 WriteOutcome.ok cEx2).2.1
     (by decide),
   (backoff_suppression obExQ "p" "p" 7 20 WriteOutcome.ok cEx2).2.2.1
     (by decide) (by decide) (by decide),
   (backoff_suppression obExQ "p" "p" 7 9 WriteOutcome.ok cEx2).2.2.2.1
     (by decide) (by decide),
   (backoff_suppression obExQ "p" "p" 7 9 WriteOutcome.failed cEx2).2.2.2.2
     (by decide) (by decide)⟩

/-! Lemmas about the connection table and membership reconciliation. -/

theorem alGet_mem {α : Type} (m : List (String × α)) (q : String) (v : α)
    (h : alGet m q = Option.some v) : (q, v) ∈ m := by
  induction m with
  | nil => simp [alGet] at h
  | cons hd rest ih =>
      obtain ⟨k, w⟩ := hd
      by_cases hk : k = q
      · subst hk
        have h2 : w = v := by simpa [alGet] using h
        subst h2
        exact List.mem_cons_self _ _
      · simp only [alGet, if_neg hk] at h
        exact List.mem_cons_of_mem _ (ih h)

theorem mem_alSet {α : Type} (m : List (String × α)) (k : String) (v : α)
    (x : String × α) (hx : x ∈ alSet m k v) : x ∈ m ∨ x = (k, v) := by
  induction m with
  | nil => simpa [alSet] using hx
  | cons hd rest ih =>
      obtain ⟨k1, v1⟩ := hd
      by_cases h1 : k1 = k
      · subst h1
        simp only [alSet, if_pos rfl] at hx
        rcases List.mem_cons.mp hx with h | h
        · exact Or.inr h
        · exact Or.inl (List.mem_cons_of_mem _ h)
      · simp only [alSet, if_neg h1] at hx
        rcases List.mem_cons.mp hx with h | h
        · exact Or.inl (h ▸ List.mem_cons_self _ _)
        · rcases ih h with h2 | h2
          · exact Or.inl (List.mem_cons_of_mem _ h2)
          · exact Or.inr h2

theorem mem_alErase {α : Type} (m : List (String × α)) (q : String)
    (x : String × α) : x ∈ alErase m q ↔ x ∈ m ∧ x.1 ≠ q := by
  simp [alErase, List.mem_filter]

theorem alGet_alErase {α : Type} (m : List (String × α)) (p q : String) :
    alGet (alErase m p) q = if p = q then Option.none else alGet m q := by
  induction m with
  | nil => simp [alErase, alGet]
  | cons hd rest ih =>
      obtain ⟨k, v⟩ := hd
      have hstep : alErase ((k, v) :: rest) p =
          if k ≠ p then (k, v) :: alErase rest p else alErase rest p := by
        simp only [alErase, List.filter_cons]
        by_cases hk : k = p <;> simp [hk]
      by_cases hk : k = p
      · subst hk
        rw [hstep, if_neg (by simp), ih]
        by_cases hq : k = q
        · simp [hq]
        · simp [alGet, hq]
      · rw [hstep, if_pos hk]
        by_cases hq : k = q
        · subst hq
          have hpq : ¬ p = k := fun hh => hk hh.symm
          simp [alGet, hpq]
        · simp [alGet, hq, ih]

theorem cpc_noop (g : LobbyState) (p : String)
    (h : (alGet g.peerConnections p).isSome = true) :
    createPeerConnection g p = g := by
  simp [createPeerConnection, h]

theorem cpc_alGet_some (g : LobbyState) (p q : String)
    (h : (alGet g.peerConnections q).isSome = true) :
    alGet (createPeerConnection g p).peerConnections q =
      alGet g.peerConnections q := by
  by_cases hp : (alGet g.peerConnections p).isSome
  · simp [createPeerConnection, hp]
  · have hpq : p ≠ q := fun hh => hp (hh ▸ h)
    simp [createPeerConnection, hp, alGet_alSet, hpq]

theorem cpc_isSome_self (g : LobbyState) (p : String) :
    (alGet (createPeerConnection g p).peerConnections p).isSome = true := by
  by_cases hp : (alGet g.peerConnections p).isSome
  · simp [createPeerConnection, hp]
  · simp [createPeerConnection, hp, alGet_alSet]

theorem foldl_cpc_alGet_some (ids : List String) (g : LobbyState)
    (q : String) (h : (alGet g.peerConnections q).isSome = true) :
    alGet (ids.foldl createPeerConnection g).peerConnections q =
      alGet g.peerConnections q := by
  induction ids generalizing g with
  | nil => rfl
  | cons p rest ih =>
      rw [List.foldl_cons,
        ih (createPeerConnection g p)
          (by rw [cpc_alGet_some g p q h]; exact h),
        cpc_alGet_some g p q h]

theorem foldl_cpc_mem_isSome (ids : List String) (g : LobbyState)
    (q : String) (hq : q ∈ ids) :
    (alGet (ids.foldl createPeerConnection g).peerConnections q).isSome =
      true := by
  induction ids generalizing g with
  | nil => cases hq
  | cons p rest ih =>
      rw [List.foldl_cons]
      rcases List.mem_cons.mp hq with h | h
      · subst h
        rw [foldl_cpc_alGet_some rest _ q (cpc_isSome_self g q)]
        exact cpc_isSome_self g q
      · exact ih (createPeerConnection g p) h

theorem foldl_cpc_noop (ids : List String) (g : LobbyState)
    (h : ∀ q ∈ ids, (alGet g.peerConnections q).isSome = true) :
    ids.foldl createPeerConnection g = g := by
  induction ids with
  | nil => rfl
  | cons p rest ih =>
      rw [List.foldl_cons, cpc_noop g p (h p (List.mem_cons_self _ _))]
      exact ih (fun q hq => h q (List.mem_cons_of_mem _ hq))

theorem foldl_cpc_fields (ids : List String) (g : LobbyState) :
    (ids.foldl createPeerConnection g).makingOffer = g.makingOffer ∧
    (ids.foldl createPeerConnection g).iceQueues = g.iceQueues ∧
    (ids.foldl createPeerConnection g).recvKeys = g.recvKeys ∧
    (ids.foldl createPeerConnection g).outQueues = g.outQueues ∧
    (ids.foldl createPeerConnection g).sentKeys = g.sentKeys ∧
    (ids.foldl createPeerConnection g).analyzers = g.analyzers ∧
    (ids.foldl createPeerConnection g).speakingPeers = g.speakingPeers ∧
    (ids.foldl createPeerConnection g).remoteStreams = g.remoteStreams ∧
    (ids.foldl createPeerConnection g).closedLog = g.closedLog := by
  induction ids generalizing g with
  | nil => simp
  | cons p rest ih =>
      rw [List.foldl_cons]
      have h := ih (createPeerConnection g p)
      by_cases hp : (alGet g.peerConnections p).isSome <;>
        simpa [createPeerConnection, hp] using h

theorem alGet_teardown (g : LobbyState) (p q : String) :
    alGet (teardownPeer g p).peerConnections q =
      if p = q then Option.none else alGet g.peerConnections q :=
  alGet_alErase g.peerConnections p q

theorem foldl_teardown_alGet (l : List String) (g : LobbyState) (q : String) :
    alGet (l.foldl teardownPeer g).peerConnections q =
      if q ∈ l then Option.none else alGet g.peerConnections q := by
  induction l generalizing g with
  | nil => simp
  | cons p rest ih =>
      rw [List.foldl_cons, ih]
      by_cases h1 : q ∈ rest
      · simp [h1]
      · by_cases h2 : p = q
        · subst h2
          simp [h1, alGet_teardown]
        · have h2q : ¬ q = p := fun hh => h2 hh.symm
          simp [h1, h2, h2q, alGet_teardown, List.mem_cons]

theorem foldl_teardown_entries (l : List String) (g : LobbyState)
    (x : String × Conn)
    (hx : x ∈ (l.foldl teardownPeer g).peerConnections) :
    x ∈ g.peerConnections ∧ x.1 ∉ l := by
  induction l generalizing g with
  | nil => exact ⟨by simpa using hx, by simp⟩
  | cons p rest ih =>
      rw [List.foldl_cons] at hx
      obtain ⟨h1, h2⟩ := ih (teardownPeer g p) hx
      have h3 := (mem_alErase g.peerConnections p x).mp h1
      refine ⟨h3.1, ?_⟩
      simp only [List.mem_cons, not_or]
      exact ⟨h3.2, h2⟩

theorem foldl_teardown_fields (l : List String) (g : LobbyState) :
    (l.foldl teardownPeer g).iceQueues = g.iceQueues ∧
    (l.foldl teardownPeer g).outQueues = g.outQueues ∧
    (l.foldl teardownPeer g).sentKeys = g.sentKeys ∧
    (l.foldl teardownPeer g).recvKeys = g.recvKeys ∧
    (l.foldl teardownPeer g).makingOffer = g.makingOffer ∧
    (l.foldl teardownPeer g).createdLog = g.createdLog := by
  induction l generalizing g with
  | nil => simp
  | cons p rest ih =>
      rw [List.foldl_cons]
      simpa [teardownPeer] using ih (teardownPeer g p)

theorem mem_teardown_analyzers (g : LobbyState) (p q : String) :
    q ∈ (teardownPeer g p).analyzers ↔ q ∈ g.analyzers ∧ q ≠ p := by
  simp [teardownPeer, List.mem_filter]

theorem mem_teardown_speaking (g : LobbyState) (p q : String) :
    q ∈ (teardownPeer g p).speakingPeers ↔
      q ∈ g.speakingPeers ∧ q ≠ p := by
  simp [teardownPeer, List.mem_filter]

theorem mem_teardown_streams (g : LobbyState) (p q : String) :
    q ∈ (teardownPeer g p).remoteStreams ↔
      q ∈ g.remoteStreams ∧ q ≠ p := by
  simp [teardownPeer, List.mem_filter]

theorem foldl_teardown_mono (l : List String) (g : LobbyState) (q : String) :
    (q ∉ g.analyzers → q ∉ (l.foldl teardownPeer g).analyzers) ∧
    (q ∉ g.speakingPeers → q ∉ (l.foldl teardownPeer g).speakingPeers) ∧
    (q ∉ g.remoteStreams → q ∉ (l.foldl teardownPeer g).remoteStreams) ∧
    (q ∈ g.closedLog → q ∈ (l.foldl teardownPeer g).closedLog) := by
  induction l generalizing g with
  | nil => simp
  | cons p rest ih =>
      rw [List.foldl_cons]
      refine ⟨?_, ?_, ?_, ?_⟩ <;> intro h
      · exact (ih (teardownPeer g p)).1
          (by simp [mem_teardown_analyzers, h])
      · exact (ih (teardownPeer g p)).2.1
          (by simp [mem_teardown_speaking, h])
      · exact (ih (teardownPeer g p)).2.2.1
          (by simp [mem_teardown_streams, h])
      · exact (ih (teardownPeer g p)).2.2.2
          (by simp [teardownPeer]; exact Or.inl h)

theorem foldl_teardown_purge (l : List String) (g : LobbyState) (q : String)
    (hq : q ∈ l) :
    q ∉ (l.foldl teardownPeer g).analyzers ∧
    q ∉ (l.foldl teardownPeer g).speakingPeers ∧
    q ∉ (l.foldl teardownPeer g).remoteStreams ∧
    q ∈ (l.foldl teardownPeer g).closedLog := by
  induction l generalizing g with
  | nil => cases hq
  | cons p rest ih =>
      rw [List.foldl_cons]
      rcases List.mem_cons.mp hq with h | h
      · subst h
        refine ⟨(foldl_teardown_mono rest _ q).1 ?_,
          (foldl_teardown_mono rest _ q).2.1 ?_,
          (foldl_teardown_mono rest _ q).2.2.1 ?_,
          (foldl_teardown_mono rest _ q).2.2.2 ?_⟩
        · simp [mem_teardown_analyzers]
        · simp [mem_teardown_speaking]
        · simp [mem_teardown_streams]
        · simp [teardownPeer]
      · exact ih (teardownPeer g p) h

/-- Every element of the stale list computed by `reconcile` is a peer absent
from the membership set. -/
theorem stale_not_mem (g1 : LobbyState) (ids : List String) (x : String)
    (hx : x ∈ (g1.peerConnections.filter
      (fun e => decide (e.1 ∉ ids))).map Prod.fst) : x ∉ ids := by
  rcases List.mem_map.mp hx with ⟨e, he, rfl⟩
  have h := (List.mem_filter.mp he).2
  simpa using h

/-- Claim C9: Connection Table creation is idempotent — requesting creation
for a peer whose entry exists is a no-op returning the table unchanged — and
reconciling the same membership set twice in a row is a no-op: the second run
produces exactly the same state, in particular no additional constructions or
closes are logged. -/
theorem reconcile_idempotent (g : LobbyState) (ids : List String)
    (p : String) :
    ((alGet g.peerConnections p).isSome = true →
      createPeerConnection g p = g) ∧
    reconcile (reconcile g ids) ids = reconcile g ids ∧
    (reconcile (reconcile g ids) ids).createdLog =
      (reconcile g ids).createdLog ∧
    (reconcile (reconcile g ids) ids).closedLog =
      (reconcile g ids).closedLog := by
  have hmain : reconcile (reconcile g ids) ids = reconcile g ids := by
    have hAll : ∀ q ∈ ids,
        (alGet (reconcile g ids).peerConnections q).isSome = true := by
      intro q hq
      have h1 : alGet (reconcile g ids).peerConnections q =
          if q ∈ (((ids.foldl createPeerConnection g).peerConnections.filter
              (fun e => decide (e.1 ∉ ids))).map Prod.fst) then Option.none
          else alGet (ids.foldl createPeerConnection g).peerConnections q :=
        foldl_teardown_alGet _ _ _
      rw [h1, if_neg (fun hmem => stale_not_mem _ ids q hmem hq)]
      exact foldl_cpc_mem_isSome ids g q hq
    have hkeys : ∀ x ∈ (reconcile g ids).peerConnections, x.1 ∈ ids := by
      intro x hx
      have h2 := foldl_teardown_entries _ _ _ hx
      by_contra hnot
      exact h2.2 (List.mem_map.mpr
        ⟨x, List.mem_filter.mpr ⟨h2.1, by simpa using hnot⟩, rfl⟩)
    have hcreate : ids.foldl createPeerConnection (reconcile g ids) =
        reconcile g ids := foldl_cpc_noop ids _ hAll
    show (((ids.foldl createPeerConnection
        (reconcile g ids)).peerConnections.filter
          (fun e => decide (e.1 ∉ ids))).map Prod.fst).foldl teardownPeer
        (ids.foldl createPeerConnection (reconcile g ids)) = reconcile g ids
    rw [hcreate]
    have hfilter : (reconcile g ids).peerConnections.filter
        (fun e => decide (e.1 ∉ ids)) = [] :=
      List.filter_eq_nil_iff.mpr (fun x hx => by simpa using hkeys x hx)
    rw [hfilter]
    rfl
  exact ⟨fun h => cpc_noop g p h, hmain, by rw [hmain], by rw [hmain]⟩

/-- Witness for C9 at a concrete state with one live peer. -/
theorem reconcile_idempotent_witness :
    (createPeerConnection gEx "b" = gEx) ∧
    reconcile (reconcile gEx ["b"]) ["b"] = reconcile gEx ["b"] :=
  ⟨(reconcile_idempotent gEx ["b"] "b").1 rfl,
   (reconcile_idempotent gEx ["b"] "b").2.1⟩

/-- Counterexample for C6: the claim says teardown purges all per-peer state
including the inbound candidate buffer, the outbound batch queue and the
dedup sets; reconciling peer "b" away closes its connection, yet all four of
those maps still hold "b" entries afterwards. -/
theorem teardown_counterexample :
    alGet (reconcile gEx []).peerConnections "b" = Option.none ∧
    (reconcile gEx []).closedLog = ["b"] ∧
    alGet (reconcile gEx []).iceQueues "b" = Option.some [cEx] ∧
    alGet (reconcile gEx []).outQueues "b" = Option.some [cEx2] ∧
    alGet (reconcile gEx []).sentKeys "b" = Option.some [candKey cEx2] ∧
    alGet (reconcile gEx []).recvKeys "b" = Option.some [candKey cEx] :=
  ⟨rfl, rfl, rfl, rfl, rfl, rfl⟩

/-- Claim C6 (amended): removing a peer from the membership set closes its
connection (entry removed, close logged) and, in the lobby implementation,
purges its analyzer, speaking-flag and remote-stream entries; a relay message
from a peer with no live connection entry is discarded without error and
creates no state; but the departed peer's inbound candidate buffer, outbound
batch queue and dedup sets are left untouched by reconciliation rather than
purged. -/
theorem teardown_on_departure (g : LobbyState) (ids : List String)
    (myId fromId q : String) (sig : Signal) :
    ((reconcile g ids).iceQueues = g.iceQueues ∧
      (reconcile g ids).outQueues = g.outQueues ∧
      (reconcile g ids).sentKeys = g.sentKeys ∧
      (reconcile g ids).recvKeys = g.recvKeys) ∧
    (q ∉ ids → alGet (reconcile g ids).peerConnections q = Option.none) ∧
    (q ∉ ids → (alGet g.peerConnections q).isSome = true →
      q ∉ (reconcile g ids).analyzers ∧
      q ∉ (reconcile g ids).speakingPeers ∧
      q ∉ (reconcile g ids).remoteStreams ∧
      q ∈ (reconcile g ids).closedLog) ∧
    (alGet g.peerConnections fromId = Option.none →
      handleRelay myId g fromId sig = (g, [])) := by
  have hTfields := foldl_teardown_fields
    (((ids.foldl createPeerConnection g).peerConnections.filter
      (fun e => decide (e.1 ∉ ids))).map Prod.fst)
    (ids.foldl createPeerConnection g)
  have hCfields := foldl_cpc_fields ids g
  refine ⟨⟨hTfields.1.trans hCfields.2.1,
      hTfields.2.1.trans hCfields.2.2.2.1,
      hTfields.2.2.1.trans hCfields.2.2.2.2.1,
      hTfields.2.2.2.1.trans hCfields.2.2.1⟩, ?_, ?_, ?_⟩
  · intro hq
    have h1 : alGet (reconcile g ids).peerConnections q =
        if q ∈ (((ids.foldl createPeerConnection g).peerConnections.filter
            (fun e => decide (e.1 ∉ ids))).map Prod.fst) then Option.none
        else alGet (ids.foldl createPeerConnection g).peerConnections q :=
      foldl_teardown_alGet _ _ _
    rw [h1]
    by_cases hst : q ∈ (((ids.foldl createPeerConnection
        g).peerConnections.filter
          (fun e => decide (e.1 ∉ ids))).map Prod.fst)
    · rw [if_pos hst]
    · rw [if_neg hst]
      cases hv : alGet (ids.foldl createPeerConnection g).peerConnections q
        with
      | none => rfl
      | some v =>
          exact absurd (List.mem_map.mpr
            ⟨(q, v), List.mem_filter.mpr
              ⟨alGet_mem _ _ _ hv, by simpa using hq⟩, rfl⟩) hst
  · intro hq hsome
    have hg1 : (alGet (ids.foldl createPeerConnection
        g).peerConnections q).isSome = true := by
      rw [foldl_cpc_alGet_some ids g q hsome]
      exact hsome
    obtain ⟨v, hv⟩ := Option.isSome_iff_exists.mp hg1
    have hst : q ∈ (((ids.foldl createPeerConnection
        g).peerConnections.filter
          (fun e => decide (e.1 ∉ ids))).map Prod.fst) :=
      List.mem_map.mpr ⟨(q, v), List.mem_filter.mpr
        ⟨alGet_mem _ _ _ hv, by simpa using hq⟩, rfl⟩
    have h := foldl_teardown_purge _ (ids.foldl createPeerConnection g) q hst
    exact h
  · intro h
    simp [handleRelay, h]

/-- Witness for C6 (amended) at a concrete state: peer "b" departs, peer "c"
has no entry and its late message is discarded. -/
theorem teardown_on_departure_witness :
    ((reconcile gEx ["a"]).iceQueues = gEx.iceQueues ∧
      (reconcile gEx ["a"]).outQueues = gEx.outQueues ∧
      (reconcile gEx ["a"]).sentKeys = gEx.sentKeys ∧
      (reconcile gEx ["a"]).recvKeys = gEx.recvKeys) ∧
    (alGet (reconcile gEx ["a"]).peerConnections "b" = Option.none) ∧
    ("b" ∉ (reconcile gEx ["a"]).analyzers ∧
      "b" ∉ (reconcile gEx ["a"]).speakingPeers ∧
      "b" ∉ (reconcile gEx ["a"]).remoteStreams ∧
      "b" ∈ (reconcile gEx ["a"]).closedLog) ∧
    (handleRelay "me" gEx "c" (Signal.answer "s") = (gEx, [])) :=
  ⟨(teardown_on_departure gEx ["a"] "me" "c" "b" (Signal.answer "s")).1,
   (teardown_on_departure gEx ["a"] "me" "c" "b" (Signal.answer "s")).2.1
     (by decide),
   (teardown_on_departure gEx ["a"] "me" "c" "b" (Signal.answer "s")).2.2.1
     (by decide) rfl,
   (teardown_on_departure gEx ["a"] "me" "c" "b" (Signal.answer "s")).2.2.2
     rfl⟩

end ClutchParty
